import Mathlib

/-!
Verification of the Layer.ai MCP server (layer-mcp-server).

Python strings are embedded as `List Char`; Python `None`-able results as
`Option`; raised-and-caught exceptions as explicit outcome constructors.
Definitions are shallow embeddings of the functions in
`production_ready_layer_ai_server.py`, `critical_bug_fixes.py` and
`token_manager.py`.
-/

namespace LayerMCP

/-- Python `str` is embedded as a list of characters. -/
abbrev PyStr := List Char

/-- The character class `[A-Za-z0-9_-]` of the token regex in
`SecureTokenManager._validate_token`. -/
def isTokenChar (c : Char) : Bool :=
  decide (('A' ≤ c ∧ c ≤ 'Z') ∨ ('a' ≤ c ∧ c ≤ 'z') ∨ ('0' ≤ c ∧ c ≤ '9') ∨
    c = '-' ∨ c = '_')

/-- The regex `^pat_[A-Za-z0-9_-]+$` used by `_validate_token`, with
Python re semantics: re.match anchors at the start of the string, and
without re.MULTILINE the `$` matches at the end of the string or just
before a trailing newline.  So the string is the literal prefix `pat_`
followed by one or more allowed characters, optionally followed by a
single final newline. -/
def matchesTokenRegex (t : PyStr) : Bool :=
  "pat_".toList.isPrefixOf t &&
    (let rest := t.drop 4
     let body := if rest.getLast? = some '\n' then rest.dropLast else rest
     !body.isEmpty && body.all isTokenChar)

/-- Shallow embedding of `SecureTokenManager._validate_token`
(token_manager.py, lines 94-111): empty tokens rejected, then prefix check,
then length bounds `[50, 200]`, then the character regex. -/
def validate_token (t : PyStr) : Bool :=
  if t.isEmpty then false
  else if !("pat_".toList.isPrefixOf t) then false
  else if t.length < 50 || t.length > 200 then false
  else if !(matchesTokenRegex t) then false
  else true

/-- The token accepted by the source validator through the trailing-newline
case of `$`: pat_, 45 allowed characters, one final newline; total length
50. -/
def newlineToken : PyStr := "pat_".toList ++ List.replicate 45 'a' ++ ['\n']

/-- C4 counterexample: `_validate_token` returns True on the length-50
token pat_ + 45 a's + a final newline, because Python `$` (without
re.MULTILINE) also matches just before a trailing newline; the newline sits
after the prefix and is outside the claimed character set, so the claimed
biconditional is false at this token. -/
theorem validate_token_cex :
    validate_token newlineToken = true ∧
    newlineToken.length = 50 ∧
    '\n' ∈ newlineToken.drop 4 ∧
    ¬(('A' ≤ '\n' ∧ '\n' ≤ 'Z') ∨ ('a' ≤ '\n' ∧ '\n' ≤ 'z') ∨
      ('0' ≤ '\n' ∧ '\n' ≤ '9') ∨ '\n' = '-' ∨ '\n' = '_') := by
  refine ⟨by decide, by decide, by decide, by decide⟩

/-- C4 (amended): `_validate_token t` is true iff `t` starts with `pat_`,
has total length in `[50, 200]`, and either every character after the
4-character prefix is an ASCII letter, digit, hyphen or underscore, or —
because Python `$` also matches just before a trailing newline — the
characters after the prefix are such characters followed by one final
newline. -/
theorem validate_token_iff (t : PyStr) :
    validate_token t = true ↔
      ("pat_".toList <+: t ∧ 50 ≤ t.length ∧ t.length ≤ 200 ∧
        ((∀ c ∈ t.drop 4, (('A' ≤ c ∧ c ≤ 'Z') ∨ ('a' ≤ c ∧ c ≤ 'z') ∨
            ('0' ≤ c ∧ c ≤ '9') ∨ c = '-' ∨ c = '_')) ∨
         (∃ body, t.drop 4 = body ++ ['\n'] ∧ ∀ c ∈ body,
            (('A' ≤ c ∧ c ≤ 'Z') ∨ ('a' ≤ c ∧ c ≤ 'z') ∨
             ('0' ≤ c ∧ c ≤ '9') ∨ c = '-' ∨ c = '_')))) := by
  have hchar : ∀ c : Char, isTokenChar c = true ↔
      (('A' ≤ c ∧ c ≤ 'Z') ∨ ('a' ≤ c ∧ c ≤ 'z') ∨ ('0' ≤ c ∧ c ≤ '9') ∨
        c = '-' ∨ c = '_') := fun c => by simp [isTokenChar]
  constructor
  · intro h
    unfold validate_token at h
    split_ifs at h with h1 h2 h3 h4
    have hpre : "pat_".toList <+: t := by
      simp at h2
      exact h2
    have hbounds : 50 ≤ t.length ∧ t.length ≤ 200 := by
      simp at h3
      omega
    have hm : matchesTokenRegex t = true := by
      simp at h4
      exact h4
    refine ⟨hpre, hbounds.1, hbounds.2, ?_⟩
    unfold matchesTokenRegex at hm
    simp only [Bool.and_eq_true, Bool.not_eq_true', List.isEmpty_eq_false,
      List.all_eq_true] at hm
    obtain ⟨-, hbody⟩ := hm
    by_cases hnl : (t.drop 4).getLast? = some '\n'
    · rw [if_pos hnl] at hbody
      exact Or.inr ⟨(t.drop 4).dropLast,
        (List.dropLast_append_getLast? '\n' hnl).symm,
        fun c hc => (hchar c).mp (hbody.2 c hc)⟩
    · rw [if_neg hnl] at hbody
      exact Or.inl (fun c hc => (hchar c).mp (hbody.2 c hc))
  · rintro ⟨hpre, hlo, hhi, hcs⟩
    have hdroplen : (t.drop 4).length = t.length - 4 := List.length_drop 4 t
    have hm : matchesTokenRegex t = true := by
      unfold matchesTokenRegex
      simp only [Bool.and_eq_true, Bool.not_eq_true', List.isEmpty_eq_false,
        List.all_eq_true]
      refine ⟨List.isPrefixOf_iff_prefix.mpr hpre, ?_⟩
      rcases hcs with hall | ⟨body, heq, hall⟩
      · have hnl : ¬((t.drop 4).getLast? = some '\n') := by
          intro hnl
          have hmem := List.mem_of_mem_getLast? hnl
          exact absurd (hall '\n' hmem) (by decide)
        rw [if_neg hnl]
        refine ⟨?_, fun c hc => (hchar c).mpr (hall c hc)⟩
        intro hdrop
        rw [List.drop_eq_nil_iff] at hdrop
        omega
      · have hnl : (t.drop 4).getLast? = some '\n' := by
          rw [heq]; exact List.getLast?_concat _
        rw [if_pos hnl, heq, List.dropLast_concat]
        refine ⟨?_, fun c hc => (hchar c).mpr (hall c hc)⟩
        intro hbody
        subst hbody
        rw [heq] at hdroplen
        simp at hdroplen
        omega
    unfold validate_token
    have hne : t.isEmpty = false := by
      rcases t with - | ⟨c, rest⟩
      · simp at hlo
      · rfl
    have hb : (t.length < 50 || t.length > 200) = false := by
      simp only [Bool.or_eq_false_iff, decide_eq_false_iff_not, Nat.not_lt,
        Nat.not_le]
      omega
    have hpre2 : (['p', 'a', 't', '_'] : List Char) <+: t := by
      simpa using hpre
    simp [hne, hb, hm, hpre2]

/-- Witness for C4 at concrete tokens, one per disjunct of the amended
rule: a 50-character all-allowed token, and the newline-terminated token
of the counterexample. -/
theorem validate_token_iff_witness :
    validate_token ("pat_".toList ++ List.replicate 46 'a') = true ∧
    validate_token newlineToken = true := by
  constructor
  · exact (validate_token_iff ("pat_".toList ++ List.replicate 46 'a')).mpr
      ⟨by decide, by decide, by decide, Or.inl (by decide)⟩
  · exact (validate_token_iff newlineToken).mpr
      ⟨by decide, by decide, by decide,
        Or.inr ⟨List.replicate 45 'a', by decide, by decide⟩⟩

/-! ## File-extension resolution (C5) -/

/-- Python substring containment `pat in s`. -/
def hasSub : PyStr → PyStr → Bool
  | [], pat => pat.isEmpty
  | c :: rest, pat => pat.isPrefixOf (c :: rest) || hasSub rest pat

/-- Python `str.lower()` (ASCII behaviour). -/
def toLower (s : PyStr) : PyStr := s.map Char.toLower

/-- Python `pathlib.Path(filename).suffix`: the extension of the final path
component, taken from its last dot; empty when there is no dot, when the
dot is the first character of the name, or when the dot is the last
character. -/
def pathSuffix (filename : PyStr) : PyStr :=
  let name := (filename.reverse.takeWhile (fun c => c ≠ '/')).reverse
  let after := name.reverse.takeWhile (fun c => c ≠ '.')
  if after.length = name.length then []          -- no dot at all
  else if after.isEmpty then []                  -- dot is the final character
  else if name.length - after.length - 1 = 0 then []  -- dot is the first character
  else '.' :: after.reverse

/-- Shallow embedding of `_determine_file_extension` in
production_ready_layer_ai_server.py (lines 330-371).  All checks are Python
substring containment on the lower-cased content type.  This variant has no
avi or ogg branches. -/
def determine_file_extension (content_type filename : PyStr) : PyStr :=
  let ct := toLower content_type
  if hasSub ct "image".toList then
    if hasSub ct "png".toList then ".png".toList
    else if hasSub ct "jpeg".toList || hasSub ct "jpg".toList then ".jpg".toList
    else if hasSub ct "gif".toList then ".gif".toList
    else if hasSub ct "svg".toList then ".svg".toList
    else if hasSub ct "webp".toList then ".webp".toList
    else ".png".toList
  else if hasSub ct "video".toList then
    if hasSub ct "mp4".toList then ".mp4".toList
    else if hasSub ct "webm".toList then ".webm".toList
    else ".mp4".toList
  else if hasSub ct "audio".toList then
    if hasSub ct "wav".toList then ".wav".toList
    else if hasSub ct "mp3".toList then ".mp3".toList
    else ".wav".toList
  else if hasSub ct "model".toList || hasSub ct "application/octet-stream".toList then
    ".glb".toList
  else
    let ext := pathSuffix filename
    if ext.isEmpty then ".png".toList else ext

/-- Shallow embedding of `_determine_file_extension` in
critical_bug_fixes.py (lines 257-306).  Identical to the production variant
except for the extra avi and ogg branches. -/
def determine_file_extension_fixed (content_type filename : PyStr) : PyStr :=
  let ct := toLower content_type
  if hasSub ct "image".toList then
    if hasSub ct "png".toList then ".png".toList
    else if hasSub ct "jpeg".toList || hasSub ct "jpg".toList then ".jpg".toList
    else if hasSub ct "gif".toList then ".gif".toList
    else if hasSub ct "svg".toList then ".svg".toList
    else if hasSub ct "webp".toList then ".webp".toList
    else ".png".toList
  else if hasSub ct "video".toList then
    if hasSub ct "mp4".toList then ".mp4".toList
    else if hasSub ct "webm".toList then ".webm".toList
    else if hasSub ct "avi".toList then ".avi".toList
    else ".mp4".toList
  else if hasSub ct "audio".toList then
    if hasSub ct "wav".toList then ".wav".toList
    else if hasSub ct "mp3".toList then ".mp3".toList
    else if hasSub ct "ogg".toList then ".ogg".toList
    else ".wav".toList
  else if hasSub ct "model".toList || hasSub ct "application/octet-stream".toList then
    ".glb".toList
  else
    let ext := pathSuffix filename
    if ext.isEmpty then ".png".toList else ext

/-- C5 counterexample: the production `_determine_file_extension` has no avi
or ogg branch, so content type video/avi resolves to .mp4 (the claim states
.avi) and audio/ogg resolves to .wav (the claim states .ogg). -/
theorem determine_file_extension_cex :
    determine_file_extension "video/avi".toList "clip".toList = ".mp4".toList ∧
    determine_file_extension "audio/ogg".toList "clip".toList = ".wav".toList ∧
    ".mp4".toList ≠ ".avi".toList ∧ ".wav".toList ≠ ".ogg".toList := by decide

/-- C5 (amended): both variants are pure functions of
(content type, filename); the critical_bug_fixes variant implements the
stated table exactly, while the production variant implements the same
table except that video/avi falls to the video default .mp4 and audio/ogg
falls to the audio default .wav.  Concrete rows are checked on every listed
content type, and the catch-all rows (unrecognized image/video/audio types
and the filename fallback) are proved for all inputs. -/
theorem determine_file_extension_table :
    (determine_file_extension_fixed "image/png".toList [] = ".png".toList ∧
     determine_file_extension_fixed "image/jpeg".toList [] = ".jpg".toList ∧
     determine_file_extension_fixed "image/jpg".toList [] = ".jpg".toList ∧
     determine_file_extension_fixed "image/gif".toList [] = ".gif".toList ∧
     determine_file_extension_fixed "image/svg".toList [] = ".svg".toList ∧
     determine_file_extension_fixed "image/webp".toList [] = ".webp".toList ∧
     determine_file_extension_fixed "image/tiff".toList [] = ".png".toList ∧
     determine_file_extension_fixed "video/mp4".toList [] = ".mp4".toList ∧
     determine_file_extension_fixed "video/webm".toList [] = ".webm".toList ∧
     determine_file_extension_fixed "video/avi".toList [] = ".avi".toList ∧
     determine_file_extension_fixed "video/quicktime".toList [] = ".mp4".toList ∧
     determine_file_extension_fixed "audio/wav".toList [] = ".wav".toList ∧
     determine_file_extension_fixed "audio/mp3".toList [] = ".mp3".toList ∧
     determine_file_extension_fixed "audio/ogg".toList [] = ".ogg".toList ∧
     determine_file_extension_fixed "audio/flac".toList [] = ".wav".toList ∧
     determine_file_extension_fixed "model/gltf-binary".toList [] = ".glb".toList ∧
     determine_file_extension_fixed "application/octet-stream".toList [] = ".glb".toList) ∧
    (determine_file_extension "image/png".toList [] = ".png".toList ∧
     determine_file_extension "image/jpeg".toList [] = ".jpg".toList ∧
     determine_file_extension "image/jpg".toList [] = ".jpg".toList ∧
     determine_file_extension "image/gif".toList [] = ".gif".toList ∧
     determine_file_extension "image/svg".toList [] = ".svg".toList ∧
     determine_file_extension "image/webp".toList [] = ".webp".toList ∧
     determine_file_extension "image/tiff".toList [] = ".png".toList ∧
     determine_file_extension "video/mp4".toList [] = ".mp4".toList ∧
     determine_file_extension "video/webm".toList [] = ".webm".toList ∧
     determine_file_extension "video/avi".toList [] = ".mp4".toList ∧
     determine_file_extension "audio/wav".toList [] = ".wav".toList ∧
     determine_file_extension "audio/mp3".toList [] = ".mp3".toList ∧
     determine_file_extension "audio/ogg".toList [] = ".wav".toList ∧
     determine_file_extension "model/gltf-binary".toList [] = ".glb".toList ∧
     determine_file_extension "application/octet-stream".toList [] = ".glb".toList) ∧
    (∀ ct fn, hasSub (toLower ct) "image".toList = false →
      hasSub (toLower ct) "video".toList = false →
      hasSub (toLower ct) "audio".toList = false →
      hasSub (toLower ct) "model".toList = false →
      hasSub (toLower ct) "application/octet-stream".toList = false →
      determine_file_extension ct fn =
        (if (pathSuffix fn).isEmpty then ".png".toList else pathSuffix fn) ∧
      determine_file_extension_fixed ct fn =
        (if (pathSuffix fn).isEmpty then ".png".toList else pathSuffix fn)) ∧
    (∀ ct fn, hasSub (toLower ct) "image".toList = true →
      hasSub (toLower ct) "png".toList = false →
      hasSub (toLower ct) "jpeg".toList = false →
      hasSub (toLower ct) "jpg".toList = false →
      hasSub (toLower ct) "gif".toList = false →
      hasSub (toLower ct) "svg".toList = false →
      hasSub (toLower ct) "webp".toList = false →
      determine_file_extension ct fn = ".png".toList ∧
      determine_file_extension_fixed ct fn = ".png".toList) ∧
    (∀ ct fn, hasSub (toLower ct) "image".toList = false →
      hasSub (toLower ct) "video".toList = true →
      hasSub (toLower ct) "mp4".toList = false →
      hasSub (toLower ct) "webm".toList = false →
      determine_file_extension ct fn = ".mp4".toList ∧
      (hasSub (toLower ct) "avi".toList = false →
        determine_file_extension_fixed ct fn = ".mp4".toList)) ∧
    (∀ ct fn, hasSub (toLower ct) "image".toList = false →
      hasSub (toLower ct) "video".toList = false →
      hasSub (toLower ct) "audio".toList = true →
      hasSub (toLower ct) "wav".toList = false →
      hasSub (toLower ct) "mp3".toList = false →
      determine_file_extension ct fn = ".wav".toList ∧
      (hasSub (toLower ct) "ogg".toList = false →
        determine_file_extension_fixed ct fn = ".wav".toList)) := by
  refine ⟨by decide, by decide, ?_, ?_, ?_, ?_⟩
  · intro ct fn h1 h2 h3 h4 h5
    simp at h1 h2 h3 h4 h5
    constructor
    · simp [determine_file_extension, h1, h2, h3, h4, h5]
    · simp [determine_file_extension_fixed, h1, h2, h3, h4, h5]
  · intro ct fn h1 h2 h3 h4 h5 h6 h7
    simp at h1 h2 h3 h4 h5 h6 h7
    constructor
    · simp [determine_file_extension, h1, h2, h3, h4, h5, h6, h7]
    · simp [determine_file_extension_fixed, h1, h2, h3, h4, h5, h6, h7]
  · intro ct fn h1 h2 h3 h4
    simp at h1 h2 h3 h4
    constructor
    · simp [determine_file_extension, h1, h2, h3, h4]
    · intro h5
      simp at h5
      simp [determine_file_extension_fixed, h1, h2, h3, h4, h5]
  · intro ct fn h1 h2 h3 h4 h5
    simp at h1 h2 h3 h4 h5
    constructor
    · simp [determine_file_extension, h1, h2, h3, h4, h5]
    · intro h6
      simp at h6
      simp [determine_file_extension_fixed, h1, h2, h3, h4, h5, h6]

/-- Witness for the quantified catch-all rows of the amended C5 theorem at
concrete inputs: content type text/html with filenames report.pdf and
report. -/
theorem determine_file_extension_table_witness :
    determine_file_extension "text/html".toList "report.pdf".toList = ".pdf".toList ∧
    determine_file_extension_fixed "text/html".toList "report".toList = ".png".toList := by
  constructor
  · have h := (determine_file_extension_table.2.2.1 "text/html".toList
      "report.pdf".toList (by decide) (by decide) (by decide) (by decide)
      (by decide)).1
    rw [h]; decide
  · have h := (determine_file_extension_table.2.2.1 "text/html".toList
      "report".toList (by decide) (by decide) (by decide) (by decide)
      (by decide)).2
    rw [h]; decide

/-! ## Completion polling (C1, C10)

Shallow embedding of the polling loop of the coroutine
`_wait_for_completion_with_retry` (production_ready_layer_ai_server.py
lines 532-614; critical_bug_fixes.py lines 172-255 is textually the same
loop).  The environment is a function from the poll index to the outcome of
that status request: either a raised exception (transport failure, invalid
response structure, or an error payload) or the list of returned
inferences, each represented by its status string.  The loop body at
iteration i runs at elapsed time 5*i; the second component of the result is
the total number of seconds slept in calls to asyncio.sleep. -/

/-- Outcome of one status poll as seen by the try block of the loop. -/
inductive PollResult where
  | failure
  | success (statuses : List PyStr)
deriving DecidableEq

/-- Terminal report of the polling loop, one constructor per return
statement of the source. -/
inductive WaitResult where
  | completed (elapsed : ℕ)
  | generationFailed (elapsed : ℕ)
  | cancelled (elapsed : ℕ)
  | notFound
  | statusCheckFailed (attempts : ℕ)
  | timedOut (total : ℕ)
deriving DecidableEq

/-- One-to-one embedding of the while loop of
`_wait_for_completion_with_retry`: i is the iteration index (so elapsed
time is 5*i, with max_wait_time 300 and check_interval 5), consec is the
consecutive-failure counter (max_consecutive_failures 3).  Returns the
report together with the total seconds slept from this point on. -/
def wait_loop (polls : ℕ → PollResult) (i consec : ℕ) : WaitResult × ℕ :=
  if _h : 5 * i < 300 then
    match polls i with
    | .failure =>
      if consec + 1 ≥ 3 then (.statusCheckFailed (consec + 1), 0)
      else
        let r := wait_loop polls (i + 1) (consec + 1)
        (r.1, r.2 + 5)
    | .success [] => (.notFound, 0)
    | .success (st :: _) =>
      if st = "COMPLETE".toList then (.completed (5 * i), 0)
      else if st = "FAILED".toList then (.generationFailed (5 * i), 0)
      else if st = "CANCELLED".toList then (.cancelled (5 * i), 0)
      else
        let r := wait_loop polls (i + 1) 0
        (r.1, r.2 + 5)
  else (.timedOut 300, 0)
termination_by 60 - i
decreasing_by all_goals omega

/-- Entry point of the polling phase: elapsed_time and
consecutive_failures start at 0. -/
def wait_for_completion (polls : ℕ → PollResult) : WaitResult × ℕ :=
  wait_loop polls 0 0

/-- Total sleep of the loop from iteration i on is at most the remaining
budget 300 - 5*i. -/
theorem wait_loop_sleep_bound (polls : ℕ → PollResult) :
    ∀ fuel i consec, 60 ≤ i + fuel →
      (wait_loop polls i consec).2 ≤ 300 - 5 * i := by
  intro fuel
  induction fuel with
  | zero =>
    intro i consec h
    rw [wait_loop]
    have h5 : ¬ 5 * i < 300 := by omega
    simp [h5]
  | succ n ih =>
    intro i consec h
    rw [wait_loop]
    by_cases h5 : 5 * i < 300
    · simp only [h5, dif_pos]
      cases hp : polls i with
      | failure =>
        by_cases habort : consec + 1 ≥ 3
        · simp [habort]
        · have := ih (i + 1) (consec + 1) (by omega)
          simp only [habort, if_false]
          omega
      | success l =>
        cases l with
        | nil => simp
        | cons st rest =>
          by_cases hc : st = "COMPLETE".toList
          · simp [hc]
          · by_cases hf : st = "FAILED".toList
            · simp [hc, hf]
            · by_cases hx : st = "CANCELLED".toList
              · simp [hc, hf, hx]
              · have := ih (i + 1) 0 (by omega)
                simp only [hc, hf, hx, if_false]
                omega
    · simp [h5]

/-- When every poll reports a non-terminal inference, the loop consumes the
whole budget and times out, sleeping exactly the remaining 300 - 5*i
seconds. -/
theorem wait_loop_timeout (polls : ℕ → PollResult) :
    ∀ fuel i consec, 60 ≤ i + fuel → 5 * i ≤ 300 →
      (∀ j, ∃ st rest, polls j = .success (st :: rest) ∧
        st ≠ "COMPLETE".toList ∧ st ≠ "FAILED".toList ∧ st ≠ "CANCELLED".toList) →
      wait_loop polls i consec = (.timedOut 300, 300 - 5 * i) := by
  intro fuel
  induction fuel with
  | zero =>
    intro i consec h hle _
    rw [wait_loop]
    have h5 : ¬ 5 * i < 300 := by omega
    have : 300 - 5 * i = 0 := by omega
    simp [h5, this]
  | succ n ih =>
    intro i consec h hle hpolls
    by_cases h5 : 5 * i < 300
    · obtain ⟨st, rest, hp, hc, hf, hx⟩ := hpolls i
      rw [wait_loop]
      simp only [h5, dif_pos, hp, hc, hf, hx, if_false]
      have := ih (i + 1) 0 (by omega) (by omega) hpolls
      rw [this]
      have harith : 300 - 5 * (i + 1) + 5 = 300 - 5 * i := by omega
      rw [harith]
    · rw [wait_loop]
      have : 300 - 5 * i = 0 := by omega
      simp [h5, this]

/-- C1: the polling loop of the source terminates for every sequence of
poll results (the embedding is total, by the decreasing measure 60 - i),
and: (1) total slept wall-clock time is bounded by deadline + interval
(300 + 5 seconds); (2) as soon as a poll reports a terminal status
(COMPLETE, FAILED, CANCELLED) the loop returns the matching report at the
current elapsed time without further waiting, and a successful non-terminal
poll continues with the consecutive-failure counter reset to 0 whatever its
previous value; (3) three consecutive poll failures starting from a reset
counter abort with a failure report after exactly two sleeps; (4) when
every poll is a successful non-terminal report the loop times out at the
300-second deadline having slept exactly 300 seconds. -/
theorem wait_for_completion_spec :
    (∀ polls, (wait_for_completion polls).2 ≤ 300 + 5) ∧
    (∀ polls i consec st rest, 5 * i < 300 → polls i = .success (st :: rest) →
      (st = "COMPLETE".toList → wait_loop polls i consec = (.completed (5 * i), 0)) ∧
      (st = "FAILED".toList → wait_loop polls i consec = (.generationFailed (5 * i), 0)) ∧
      (st = "CANCELLED".toList → wait_loop polls i consec = (.cancelled (5 * i), 0)) ∧
      (st ≠ "COMPLETE".toList → st ≠ "FAILED".toList → st ≠ "CANCELLED".toList →
        wait_loop polls i consec =
          ((wait_loop polls (i + 1) 0).1, (wait_loop polls (i + 1) 0).2 + 5))) ∧
    (∀ polls i, 5 * (i + 2) < 300 → polls i = .failure →
      polls (i + 1) = .failure → polls (i + 2) = .failure →
      wait_loop polls i 0 = (.statusCheckFailed 3, 10)) ∧
    (∀ polls, (∀ j, ∃ st rest, polls j = .success (st :: rest) ∧
        st ≠ "COMPLETE".toList ∧ st ≠ "FAILED".toList ∧ st ≠ "CANCELLED".toList) →
      wait_for_completion polls = (.timedOut 300, 300)) := by
  refine ⟨?_, ?_, ?_, ?_⟩
  · intro polls
    have := wait_loop_sleep_bound polls 60 0 0 (by omega)
    unfold wait_for_completion
    omega
  · intro polls i consec st rest h5 hp
    refine ⟨?_, ?_, ?_, ?_⟩
    · intro hc; rw [wait_loop]; simp [h5, hp, hc]
    · intro hf; rw [wait_loop]
      have hc : ¬ st = "COMPLETE".toList := by rw [hf]; decide
      simp [h5, hp, hc, hf]
    · intro hx; rw [wait_loop]
      have hc : ¬ st = "COMPLETE".toList := by rw [hx]; decide
      have hf : ¬ st = "FAILED".toList := by rw [hx]; decide
      simp [h5, hp, hc, hf, hx]
    · intro hc hf hx; rw [wait_loop]
      simp at hc hf hx
      simp [h5, hp, hc, hf, hx]
  · intro polls i h5 hp0 hp1 hp2
    have e2 : wait_loop polls (i + 2) 2 = (.statusCheckFailed 3, 0) := by
      rw [wait_loop]
      have : 5 * (i + 2) < 300 := h5
      simp [this, hp2]
    have e1 : wait_loop polls (i + 1) 1 = (.statusCheckFailed 3, 5) := by
      rw [wait_loop]
      have h51 : 5 * (i + 1) < 300 := by omega
      have hno : ¬ 1 + 1 ≥ 3 := by omega
      simp only [h51, dif_pos, hp1, hno, if_false]
      rw [show i + 1 + 1 = i + 2 by omega, e2]
    have h50 : 5 * i < 300 := by omega
    rw [wait_loop]
    have hno : ¬ 0 + 1 ≥ 3 := by omega
    simp only [h50, dif_pos, hp0, hno, if_false]
    rw [e1]
  · intro polls hpolls
    have := wait_loop_timeout polls 60 0 0 (by omega) (by omega) hpolls
    unfold wait_for_completion
    rw [this]

/-- A poll schedule whose first report is terminal COMPLETE. -/
def pollsComplete : ℕ → PollResult := fun _ => .success ["COMPLETE".toList]

/-- A poll schedule on which every status request raises. -/
def pollsAllFail : ℕ → PollResult := fun _ => .failure

/-- A poll schedule on which the job stays IN_PROGRESS forever. -/
def pollsInProgress : ℕ → PollResult := fun _ => .success ["IN_PROGRESS".toList]

/-- Witness for C1 at concrete poll schedules: immediate COMPLETE returns
at elapsed 0, three straight failures abort after 10 seconds of sleeping,
and a never-terminating job times out at the 300-second deadline. -/
theorem wait_for_completion_spec_witness :
    wait_loop pollsComplete 0 0 = (.completed 0, 0) ∧
    wait_loop pollsAllFail 0 0 = (.statusCheckFailed 3, 10) ∧
    wait_for_completion pollsInProgress = (.timedOut 300, 300) := by
  refine ⟨?_, ?_, ?_⟩
  · have h := (wait_for_completion_spec.2.1 pollsComplete 0 0
      "COMPLETE".toList [] (by omega) rfl).1 rfl
    simpa using h
  · exact wait_for_completion_spec.2.2.1 pollsAllFail 0 (by omega) rfl rfl rfl
  · exact wait_for_completion_spec.2.2.2 pollsInProgress
      (fun j => ⟨"IN_PROGRESS".toList, [], rfl, by decide, by decide, by decide⟩)

/-- C10: a successful poll that returns an empty inference list makes the
loop return the Inference-not-found report at once — zero further sleeping,
no retry, and no effect of (or on) the consecutive-failure counter — and
this report is a distinct outcome from the terminal statuses, the
consecutive-failure abort and the timeout. -/
theorem wait_loop_empty_inferences :
    ∀ polls i consec, 5 * i < 300 → polls i = .success [] →
      wait_loop polls i consec = (.notFound, 0) ∧
      ∀ e, WaitResult.notFound ≠ .completed e ∧
        WaitResult.notFound ≠ .generationFailed e ∧
        WaitResult.notFound ≠ .cancelled e ∧
        WaitResult.notFound ≠ .statusCheckFailed e ∧
        WaitResult.notFound ≠ .timedOut e := by
  intro polls i consec h5 hp
  constructor
  · rw [wait_loop]; simp [h5, hp]
  · intro e
    refine ⟨?_, ?_, ?_, ?_, ?_⟩ <;> intro h <;> cases h

/-- A poll schedule whose first report is an empty inference list. -/
def pollsEmptyList : ℕ → PollResult := fun _ => .success []

/-- Witness for C10: the empty-inference report fires immediately even with
the consecutive-failure counter already at 2. -/
theorem wait_loop_empty_inferences_witness :
    wait_loop pollsEmptyList 0 2 = (.notFound, 0) := by
  exact (wait_loop_empty_inferences pollsEmptyList 0 2 (by omega) rfl).1

/-! ## GraphQL transport client (C2)

Shallow embedding of `_make_graphql_request`
(production_ready_layer_ai_server.py lines 183-218).  Each attempt is the
outcome of one fresh HTTP POST of the query: a 200 response without a
top-level errors key is returned; a 200 response carrying a structured
errors list raises a GraphQL-error exception inside the try block; a
non-200 status raises; the HTTP client itself may raise.  All three raises
land in the same except-clause, which sleeps 2^attempt seconds and retries
while attempts remain, else falls through to the final raise wrapping the
last error. -/

/-- Outcome of a single request attempt. -/
inductive AttemptResult where
  | ok (payload : PyStr)
  | graphqlError (msg : PyStr)
  | httpError (status : ℕ)
  | connectionError
deriving DecidableEq

/-- True exactly when the attempt returned a 200 response with no errors
list (the only non-raising path of the try block). -/
def isOkAttempt : AttemptResult → Bool
  | .ok _ => true
  | _ => false

/-- Result of the whole request: the returned payload, or the final raise
wrapping the last underlying error (none when max_retries was 0 and no
attempt ran). -/
inductive ReqResult where
  | success (payload : PyStr)
  | failure (last : Option AttemptResult)
deriving DecidableEq

/-- The for-loop of `_make_graphql_request`, structurally recursive on the
number of remaining attempts: a is the current attempt index, lastErr the
last caught error.  Returns (result, attempts consumed, total seconds
slept). -/
def req_loop (attempts : ℕ → AttemptResult) (lastErr : Option AttemptResult)
    (a : ℕ) : ℕ → ReqResult × ℕ × ℕ
  | 0 => (.failure lastErr, a, 0)
  | remaining + 1 =>
    match attempts a with
    | .ok p => (.success p, a + 1, 0)
    | r =>
      if remaining = 0 then (.failure (some r), a + 1, 0)
      else
        let q := req_loop attempts (some r) (a + 1) remaining
        (q.1, q.2.1, q.2.2 + 2 ^ a)

/-- Embedding of `_make_graphql_request` with its default max_retries. -/
def make_graphql_request (attempts : ℕ → AttemptResult) (maxRetries : ℕ) :
    ReqResult × ℕ × ℕ :=
  req_loop attempts none 0 maxRetries

/-- Attempts consumed never exceed the attempt budget. -/
theorem req_loop_used_le (attempts : ℕ → AttemptResult) :
    ∀ rem a lastErr, (req_loop attempts lastErr a rem).2.1 ≤ a + rem := by
  intro rem
  induction rem with
  | zero => intro a lastErr; simp [req_loop]
  | succ n ih =>
    intro a lastErr
    cases hA : attempts a with
    | ok p => simp [req_loop, hA]
    | graphqlError m =>
      by_cases hn : n = 0
      · simp [req_loop, hA, hn]
      · have := ih (a + 1) (some (.graphqlError m))
        simp [req_loop, hA, hn]
        omega
    | httpError s =>
      by_cases hn : n = 0
      · simp [req_loop, hA, hn]
      · have := ih (a + 1) (some (.httpError s))
        simp [req_loop, hA, hn]
        omega
    | connectionError =>
      by_cases hn : n = 0
      · simp [req_loop, hA, hn]
      · have := ih (a + 1) (some .connectionError)
        simp [req_loop, hA, hn]
        omega

/-- A failing final attempt produces the wrapped last error. -/
theorem req_loop_fail_last (attempts : ℕ → AttemptResult)
    (lastErr : Option AttemptResult) (a : ℕ)
    (h : isOkAttempt (attempts a) = false) :
    req_loop attempts lastErr a 1 = (.failure (some (attempts a)), a + 1, 0) := by
  cases hA : attempts a with
  | ok p => rw [hA] at h; simp [isOkAttempt] at h
  | graphqlError m => simp [req_loop, hA]
  | httpError s => simp [req_loop, hA]
  | connectionError => simp [req_loop, hA]

/-- A failing non-final attempt sleeps 2^a seconds and retries with the
attempt index advanced and the caught error recorded. -/
theorem req_loop_fail_retry (attempts : ℕ → AttemptResult)
    (lastErr : Option AttemptResult) (a rem : ℕ)
    (h : isOkAttempt (attempts a) = false) :
    req_loop attempts lastErr a (rem + 2) =
      ((req_loop attempts (some (attempts a)) (a + 1) (rem + 1)).1,
       (req_loop attempts (some (attempts a)) (a + 1) (rem + 1)).2.1,
       (req_loop attempts (some (attempts a)) (a + 1) (rem + 1)).2.2 + 2 ^ a) := by
  cases hA : attempts a with
  | ok p => rw [hA] at h; simp [isOkAttempt] at h
  | graphqlError m => simp [req_loop, hA]
  | httpError s => simp [req_loop, hA]
  | connectionError => simp [req_loop, hA]

/-- An attempt schedule whose first attempt is a 200 response with a
structured GraphQL errors list and whose second attempt succeeds. -/
def gqlErrorThenOk : ℕ → AttemptResult :=
  fun n => if n = 0 then .graphqlError "bad input".toList else .ok "payload".toList

/-- C2 counterexample: on a schedule whose first attempt returns HTTP 200
with a structured application-level errors list, `_make_graphql_request`
retries — it consumes a second attempt (sleeping 2^0 seconds in between)
and returns that attempt's payload — whereas the claim states such an error
is not retried, i.e. exactly one attempt would be consumed. -/
theorem make_graphql_request_cex :
    gqlErrorThenOk 0 = .graphqlError "bad input".toList ∧
    make_graphql_request gqlErrorThenOk 3 = (.success "payload".toList, 2, 1) ∧
    (make_graphql_request gqlErrorThenOk 3).2.1 ≠ 1 := by
  refine ⟨rfl, rfl, by decide⟩

/-- C2 (amended): `_make_graphql_request` makes at most 3 attempts, sleeps
2^attempt seconds between consecutive attempts, and after the last attempt
fails it raises an error wrapping the last underlying error; but every
failed attempt is retried regardless of kind — structured application-level
GraphQL errors in a 2xx response body are retried exactly like non-2xx
statuses and connection errors. -/
theorem make_graphql_request_spec :
    (∀ attempts, (make_graphql_request attempts 3).2.1 ≤ 3) ∧
    (∀ attempts, isOkAttempt (attempts 0) = false →
      isOkAttempt (attempts 1) = false → isOkAttempt (attempts 2) = false →
      make_graphql_request attempts 3 =
        (.failure (some (attempts 2)), 3, 2 ^ 0 + 2 ^ 1)) ∧
    (∀ attempts p, attempts 0 = .ok p →
      make_graphql_request attempts 3 = (.success p, 1, 0)) ∧
    (∀ attempts p, isOkAttempt (attempts 0) = false → attempts 1 = .ok p →
      make_graphql_request attempts 3 = (.success p, 2, 2 ^ 0)) ∧
    (∀ attempts p, isOkAttempt (attempts 0) = false →
      isOkAttempt (attempts 1) = false → attempts 2 = .ok p →
      make_graphql_request attempts 3 = (.success p, 3, 2 ^ 0 + 2 ^ 1)) := by
  refine ⟨?_, ?_, ?_, ?_, ?_⟩
  · intro attempts
    have := req_loop_used_le attempts 3 0 none
    simpa [make_graphql_request] using this
  · intro attempts h0 h1 h2
    unfold make_graphql_request
    rw [show (3 : ℕ) = 1 + 2 by rfl, req_loop_fail_retry attempts none 0 1 h0,
      req_loop_fail_retry attempts (some (attempts 0)) 1 0 h1,
      req_loop_fail_last attempts (some (attempts 1)) 2 h2]
    norm_num
  · intro attempts p h0
    unfold make_graphql_request
    simp [req_loop, h0]
  · intro attempts p h0 h1
    unfold make_graphql_request
    rw [show (3 : ℕ) = 1 + 2 by rfl, req_loop_fail_retry attempts none 0 1 h0]
    simp [req_loop, h1]
  · intro attempts p h0 h1 h2
    unfold make_graphql_request
    rw [show (3 : ℕ) = 1 + 2 by rfl, req_loop_fail_retry attempts none 0 1 h0,
      req_loop_fail_retry attempts (some (attempts 0)) 1 0 h1]
    simp [req_loop, h2]

/-- An attempt schedule on which the connection always fails. -/
def allConnFail : ℕ → AttemptResult := fun _ => .connectionError

/-- Witness for the amended C2 theorem at concrete schedules: three
connection failures exhaust the budget sleeping 1 + 2 seconds and wrap the
last error, and a first-attempt GraphQL application error is retried and
the second attempt's payload returned. -/
theorem make_graphql_request_spec_witness :
    make_graphql_request allConnFail 3 =
      (.failure (some .connectionError), 3, 2 ^ 0 + 2 ^ 1) ∧
    make_graphql_request gqlErrorThenOk 3 =
      (.success "payload".toList, 2, 2 ^ 0) := by
  constructor
  · exact make_graphql_request_spec.2.1 allConnFail rfl rfl rfl
  · exact make_graphql_request_spec.2.2.2.1 gqlErrorThenOk "payload".toList
      rfl rfl

/-! ## Credential store (C3, C8)

Shallow embedding of token_manager.py.  The Fernet cipher (an external
library, not repository code) is abstracted as a Cipher: a deterministic
encryption function and a decryption function that may reject a ciphertext,
satisfying the library's round-trip contract.  The key file is stable
(`_get_or_create_key` returns the same bytes for both directions), so the
key is internal to the Cipher.  File reads and `json.loads` are abstracted
as an optional stored ciphertext and a parse oracle; every exception of the
Python try block (missing or unreadable key file, decryption error,
malformed JSON, missing dict key) is the corresponding None/none branch. -/

/-- Abstraction of a Fernet instance under one fixed key. -/
structure Cipher where
  encrypt : PyStr → PyStr
  decrypt : PyStr → Option PyStr
  decrypt_encrypt : ∀ data, decrypt (encrypt data) = some data

/-- Embedding of `SecureTokenManager._encrypt_data`. -/
def encrypt_data (C : Cipher) (data : PyStr) : PyStr := C.encrypt data

/-- Embedding of `SecureTokenManager._decrypt_data`; none is the
InvalidToken exception. -/
def decrypt_data (C : Cipher) (ct : PyStr) : Option PyStr := C.decrypt ct

/-- The fields of the stored token record that `get_token` reads. -/
structure TokenData where
  api_token : PyStr
  workspace_id : PyStr
deriving DecidableEq

/-- A resolved credential pair. -/
structure Credentials where
  api_token : PyStr
  workspace_id : PyStr
deriving DecidableEq

/-- Embedding of `SecureTokenManager.get_token` (token_manager.py lines
71-92): missing token file, decryption failure, parse failure and invalid
token shape all yield none (the except-clause or explicit returns); only a
decrypted, parsed record whose token validates is returned. -/
def get_token (C : Cipher) (stored : Option PyStr)
    (parseJson : PyStr → Option TokenData) : Option Credentials :=
  match stored with
  | none => none
  | some ct =>
    match C.decrypt ct with
    | none => none
    | some data =>
      match parseJson data with
      | none => none
      | some td =>
        if validate_token td.api_token then
          some ⟨td.api_token, td.workspace_id⟩
        else none

/-- Python whitespace stripped by `str.strip()` (ASCII subset). -/
def isPySpace (c : Char) : Bool :=
  decide (c = ' ' ∨ c = '\t' ∨ c = '\n' ∨ c = '\x0d' ∨ c = '\x0b' ∨ c = '\x0c')

/-- Python `str.strip()`. -/
def pyStrip (s : PyStr) : PyStr :=
  ((s.dropWhile isPySpace).reverse.dropWhile isPySpace).reverse

/-- Lowercase hex digit class `[0-9a-f]` of the workspace-id regex. -/
def isHexLower (c : Char) : Bool :=
  decide (('0' ≤ c ∧ c ≤ '9') ∨ ('a' ≤ c ∧ c ≤ 'f'))

/-- Consume exactly n lowercase hex digits, returning the rest. -/
def hexRun : ℕ → PyStr → Option PyStr
  | 0, rest => some rest
  | _ + 1, [] => none
  | n + 1, c :: rest => if isHexLower c then hexRun n rest else none

/-- Consume a literal dash. -/
def expectDash : PyStr → Option PyStr
  | '-' :: rest => some rest
  | _ => none

/-- The anchored workspace-id regex
8 hex, dash, 4 hex, dash, 4 hex, dash, 4 hex, dash, 12 hex
of `EnvironmentTokenManager.get_token`. -/
def isUUIDFormat (s : PyStr) : Bool :=
  match (do
    let r1 ← hexRun 8 s
    let r2 ← expectDash r1
    let r3 ← hexRun 4 r2
    let r4 ← expectDash r3
    let r5 ← hexRun 4 r4
    let r6 ← expectDash r5
    let r7 ← hexRun 4 r6
    let r8 ← expectDash r7
    hexRun 12 r8 : Option PyStr) with
  | some [] => true
  | _ => false

/-- Embedding of `EnvironmentTokenManager.get_token` (token_manager.py
lines 127-150): both variables stripped; empty values rejected; the token
checked only for the pat_ prefix and minimum length 50; the workspace id
checked against the anchored UUID regex. -/
def env_get_token (tokRaw wsRaw : PyStr) : Option Credentials :=
  let api_token := pyStrip tokRaw
  let workspace_id := pyStrip wsRaw
  if api_token = [] ∨ workspace_id = [] then none
  else if ¬("pat_".toList <+: api_token) ∨ api_token.length < 50 then none
  else if isUUIDFormat workspace_id = false then none
  else some ⟨api_token, workspace_id⟩

/-- Embedding of `LayerTokenManager.get_credentials` (token_manager.py
lines 160-175): secure storage first, environment fallback second, none
when both fail. -/
def get_credentials (C : Cipher) (stored : Option PyStr)
    (parseJson : PyStr → Option TokenData) (tokRaw wsRaw : PyStr) :
    Option Credentials :=
  match get_token C stored parseJson with
  | some c => some c
  | none => env_get_token tokRaw wsRaw

/-- A concrete cipher satisfying the round-trip contract, used to
instantiate the abstract Fernet. -/
def idCipher : Cipher where
  encrypt data := 'E' :: data
  decrypt ct :=
    match ct with
    | 'E' :: data => some data
    | _ => none
  decrypt_encrypt := fun _ => rfl

/-- The token of the C3 counterexample: correct prefix and length 50, but
every character after the prefix is an exclamation mark, outside the
stored-token character set. -/
def badEnvToken : PyStr := "pat_".toList ++ List.replicate 46 '!'

/-- A workspace id matching the UUID regex. -/
def sampleUUID : PyStr := "0123abcd-0123-abcd-0123-0123456789ab".toList

/-- C3 counterexample: with no stored record, an environment token whose
46 post-prefix characters are all outside the allowed character set — so
it fails the stored-token shape rule `_validate_token` — is accepted by
`get_credentials` together with a well-formed workspace id, because the
environment tier checks only the pat_ prefix and minimum length 50, not
the same token-shape rule as stored tokens. -/
theorem get_credentials_cex :
    get_credentials idCipher none (fun _ => none) badEnvToken sampleUUID =
      some ⟨badEnvToken, sampleUUID⟩ ∧
    validate_token badEnvToken = false ∧
    badEnvToken.length = 50 := by
  refine ⟨by decide, by decide, by decide⟩

/-- C3 (amended): `get_credentials` first attempts the secure tier and on
any of its failure modes (missing token file, decryption error, malformed
JSON, invalid stored token shape) falls through silently to the
environment tier; the environment tier validates the token against a
weaker rule than stored tokens — only the pat_ prefix and minimum length
50, with no maximum length or character-set check — plus the canonical
lowercase-UUID rule for the workspace id; when neither tier yields a valid
pair the result is none, never an exception (the embedding is a total
function into Option). -/
theorem get_credentials_spec :
    (∀ (C : Cipher) (parseJson : PyStr → Option TokenData) (a b : PyStr),
      get_credentials C none parseJson a b = env_get_token a b) ∧
    (∀ (C : Cipher) (ct : PyStr) (parseJson : PyStr → Option TokenData)
      (a b : PyStr), C.decrypt ct = none →
      get_credentials C (some ct) parseJson a b = env_get_token a b) ∧
    (∀ (C : Cipher) (ct data : PyStr) (parseJson : PyStr → Option TokenData)
      (a b : PyStr), C.decrypt ct = some data → parseJson data = none →
      get_credentials C (some ct) parseJson a b = env_get_token a b) ∧
    (∀ (C : Cipher) (ct data : PyStr) (td : TokenData)
      (parseJson : PyStr → Option TokenData) (a b : PyStr),
      C.decrypt ct = some data → parseJson data = some td →
      validate_token td.api_token = false →
      get_credentials C (some ct) parseJson a b = env_get_token a b) ∧
    (∀ (a b : PyStr) (c : Credentials), env_get_token a b = some c ↔
      (c = ⟨pyStrip a, pyStrip b⟩ ∧ "pat_".toList <+: pyStrip a ∧
        50 ≤ (pyStrip a).length ∧ isUUIDFormat (pyStrip b) = true)) ∧
    (∀ (C : Cipher) (stored : Option PyStr)
      (parseJson : PyStr → Option TokenData) (a b : PyStr),
      get_token C stored parseJson = none → env_get_token a b = none →
      get_credentials C stored parseJson a b = none) := by
  refine ⟨?_, ?_, ?_, ?_, ?_, ?_⟩
  · intro C parseJson a b
    simp [get_credentials, get_token]
  · intro C ct parseJson a b h
    simp [get_credentials, get_token, h]
  · intro C ct data parseJson a b h hp
    simp [get_credentials, get_token, h, hp]
  · intro C ct data td parseJson a b h hp hv
    simp [get_credentials, get_token, h, hp, hv]
  · intro a b c
    unfold env_get_token
    simp only []
    split_ifs with h1 h2 h3
    · constructor
      · intro h; exact h.elim
      · rintro ⟨-, hpre, hlen, huuid⟩
        rcases h1 with h1 | h1
        · rw [h1] at hpre
          have := hpre.length_le
          simp at this
        · rw [h1] at huuid
          exact absurd huuid (by decide)
    · constructor
      · intro h; exact h.elim
      · rintro ⟨-, hpre, hlen, -⟩
        rcases h2 with h2 | h2
        · exact h2 hpre
        · omega
    · constructor
      · intro h; exact h.elim
      · rintro ⟨-, -, -, huuid⟩
        rw [huuid] at h3
        exact Bool.noConfusion h3
    · push_neg at h2
      have h3' : isUUIDFormat (pyStrip b) = true := by
        cases hY : isUUIDFormat (pyStrip b) with
        | false => exact absurd hY h3
        | true => rfl
      constructor
      · intro h
        injection h with h
        exact ⟨h.symm, h2.1, by omega, h3'⟩
      · rintro ⟨hc, -, -, -⟩
        rw [hc]
  · intro C stored parseJson a b h henv
    simp [get_credentials, h, henv]

/-- Witness for C3 at concrete inputs: a corrupted stored ciphertext falls
through to the environment tier, and the environment tier accepts the
bad-charset token together with the sample workspace id. -/
theorem get_credentials_spec_witness :
    get_credentials idCipher (some ('Z' :: [])) (fun _ => none)
      badEnvToken sampleUUID = env_get_token badEnvToken sampleUUID ∧
    env_get_token badEnvToken sampleUUID = some ⟨badEnvToken, sampleUUID⟩ := by
  constructor
  · exact get_credentials_spec.2.1 idCipher ('Z' :: []) (fun _ => none)
      badEnvToken sampleUUID rfl
  · exact (get_credentials_spec.2.2.2.2.1 badEnvToken sampleUUID
      ⟨badEnvToken, sampleUUID⟩).mpr ⟨by decide, by decide, by decide, by decide⟩

/-- C8: decrypting the encryption of any serialized credential record under
the same key returns the original serialization, and a ciphertext the
cipher rejects (a corrupted record) makes `get_token` return none rather
than letting the exception escape. -/
theorem encrypt_decrypt_roundtrip :
    (∀ (C : Cipher) (data : PyStr),
      decrypt_data C (encrypt_data C data) = some data) ∧
    (∀ (C : Cipher) (ct : PyStr) (parseJson : PyStr → Option TokenData),
      C.decrypt ct = none → get_token C (some ct) parseJson = none) := by
  constructor
  · intro C data
    exact C.decrypt_encrypt data
  · intro C ct parseJson h
    simp [get_token, h]

/-- Witness for C8 on the concrete cipher: a round trip on a sample
serialization, and a rejected ciphertext yielding none. -/
theorem encrypt_decrypt_roundtrip_witness :
    decrypt_data idCipher (encrypt_data idCipher "x".toList) = some "x".toList ∧
    get_token idCipher (some ('Z' :: [])) (fun _ => none) = none := by
  constructor
  · exact encrypt_decrypt_roundtrip.1 idCipher "x".toList
  · exact encrypt_decrypt_roundtrip.2 idCipher ('Z' :: []) (fun _ => none) rfl

/-! ## Input-file batch upload (C6)

Shallow embedding of the input_files loop of `_create_asset`
(production_ready_layer_ai_server.py lines 443-469) and of
`_handle_input_files` (critical_bug_fixes.py lines 139-170), which run the
same per-file loop: a path that does not exist is recorded as a file-not-
found failure and the loop continues without any upload call; otherwise the
upload is attempted and either its url is collected or the raised error is
recorded.  Afterwards: failures with no successes abort before the job is
submitted; failures with some successes proceed with the successful subset
under a warning; no failures proceed normally. -/

/-- State of one input file in the environment: nonexistent path, an
upload that raises, or an upload that returns a url. -/
inductive FileSt where
  | missing
  | uploadError (err : PyStr)
  | uploadOk (url : PyStr)
deriving DecidableEq

instance : Inhabited FileSt := ⟨.missing⟩

/-- True when the file upload succeeded. -/
def isUploadOk : FileSt → Bool
  | .uploadOk _ => true
  | _ => false

/-- The per-file loop: returns (file_urls, failed_uploads) in loop order,
with failure entries formatted as in the source. -/
def processInputFiles : List (PyStr × FileSt) → List PyStr × List PyStr
  | [] => ([], [])
  | (p, st) :: rest =>
    let r := processInputFiles rest
    match st with
    | .missing => (r.1, (p ++ " (file not found)".toList) :: r.2)
    | .uploadError e => (r.1, (p ++ " (".toList ++ e ++ ")".toList) :: r.2)
    | .uploadOk u => (u :: r.1, r.2)

/-- Paths for which the loop actually calls `_upload_file_to_layer`: a
missing path is skipped by the continue before the try block. -/
def attemptedUploads : List (PyStr × FileSt) → List PyStr
  | [] => []
  | (p, st) :: rest =>
    match st with
    | .missing => attemptedUploads rest
    | _ => p :: attemptedUploads rest

/-- Outcome of the batch phase relative to job submission. -/
inductive UploadPhase where
  | aborted (failed : List PyStr)
  | proceedWithWarning (urls failed : List PyStr)
  | proceed (urls : List PyStr)
deriving DecidableEq

/-- The decision after the loop: all failed aborts before submission, a
mixed batch proceeds with the successful subset and a warning, an
all-success batch proceeds. -/
def handle_input_files (files : List (PyStr × FileSt)) : UploadPhase :=
  let r := processInputFiles files
  if r.2 = [] then .proceed r.1
  else if r.1 = [] then .aborted r.2
  else .proceedWithWarning r.1 r.2

/-- The collected urls are empty exactly when no upload succeeded. -/
theorem processInputFiles_fst_nil_iff (files : List (PyStr × FileSt)) :
    (processInputFiles files).1 = [] ↔ ∀ pf ∈ files, isUploadOk pf.2 = false := by
  induction files with
  | nil => simp [processInputFiles]
  | cons pf rest ih =>
    obtain ⟨p, st⟩ := pf
    cases st with
    | missing => simpa [processInputFiles, isUploadOk] using ih
    | uploadError e => simpa [processInputFiles, isUploadOk] using ih
    | uploadOk u => simp [processInputFiles, isUploadOk]

/-- The failure list is empty exactly when every upload succeeded. -/
theorem processInputFiles_snd_nil_iff (files : List (PyStr × FileSt)) :
    (processInputFiles files).2 = [] ↔ ∀ pf ∈ files, isUploadOk pf.2 = true := by
  induction files with
  | nil => simp [processInputFiles]
  | cons pf rest ih =>
    obtain ⟨p, st⟩ := pf
    cases st with
    | missing => simp [processInputFiles, isUploadOk]
    | uploadError e => simp [processInputFiles, isUploadOk]
    | uploadOk u => simpa [processInputFiles, isUploadOk] using ih

/-- A concrete batch of three files whose second path does not exist. -/
def demoFiles : List (PyStr × FileSt) :=
  [("a.png".toList, FileSt.uploadOk "urlA".toList),
   ("b.png".toList, FileSt.missing),
   ("c.png".toList, FileSt.uploadOk "urlC".toList)]

/-- C6: per-file success/failure is collected individually (urls are
exactly the successful uploads in order, one failure entry per failed
file); a nonexistent path triggers no upload call (an all-missing batch
attempts zero network calls); if every file fails the batch aborts before
submission with the aggregated failures; if only some fail it proceeds
with exactly the successful subset under a warning; and the 3-file batch
whose second file does not exist yields exactly 1 failure and proceeds
with 2 successes. -/
theorem handle_input_files_spec :
    (∀ files, (processInputFiles files).1 = files.filterMap
        (fun pf => match pf.2 with | .uploadOk u => some u | _ => none) ∧
      (processInputFiles files).2.length =
        (files.filter (fun pf => !isUploadOk pf.2)).length) ∧
    (∀ files, (∀ pf ∈ files, pf.2 = FileSt.missing) →
      attemptedUploads files = []) ∧
    (∀ files, files ≠ [] → (∀ pf ∈ files, isUploadOk pf.2 = false) →
      handle_input_files files = .aborted (processInputFiles files).2) ∧
    (∀ files, (∃ pf ∈ files, isUploadOk pf.2 = true) →
      (∃ pf ∈ files, isUploadOk pf.2 = false) →
      handle_input_files files =
        .proceedWithWarning (processInputFiles files).1 (processInputFiles files).2) ∧
    (∀ files, (∀ pf ∈ files, isUploadOk pf.2 = true) →
      handle_input_files files = .proceed (processInputFiles files).1) ∧
    (handle_input_files demoFiles =
      .proceedWithWarning ["urlA".toList, "urlC".toList]
        ["b.png (file not found)".toList] ∧
     (processInputFiles demoFiles).2.length = 1 ∧
     (processInputFiles demoFiles).1.length = 2 ∧
     attemptedUploads demoFiles = ["a.png".toList, "c.png".toList]) := by
  refine ⟨?_, ?_, ?_, ?_, ?_, by decide⟩
  · intro files
    constructor
    · induction files with
      | nil => simp [processInputFiles]
      | cons pf rest ih =>
        obtain ⟨p, st⟩ := pf
        cases st <;> simp [processInputFiles, ih]
    · induction files with
      | nil => simp [processInputFiles]
      | cons pf rest ih =>
        obtain ⟨p, st⟩ := pf
        cases st <;> simp [processInputFiles, isUploadOk, ih]
  · intro files h
    induction files with
    | nil => simp [attemptedUploads]
    | cons pf rest ih =>
      obtain ⟨p, st⟩ := pf
      have hst := h (p, st) (by simp)
      simp at hst
      subst hst
      simp [attemptedUploads]
      exact ih (fun q hq => h q (by simp [hq]))
  · intro files hne hall
    cases files with
    | nil => exact absurd rfl hne
    | cons pf0 rest =>
      have hfail : (processInputFiles (pf0 :: rest)).2 ≠ [] := by
        intro h
        have := (processInputFiles_snd_nil_iff _).mp h pf0 (by simp)
        rw [hall pf0 (by simp)] at this
        exact Bool.noConfusion this
      have hurls : (processInputFiles (pf0 :: rest)).1 = [] :=
        (processInputFiles_fst_nil_iff _).mpr hall
      simp [handle_input_files, hfail, hurls]
  · intro files hok hfailex
    obtain ⟨pfo, hpfo, hpfok⟩ := hok
    obtain ⟨pff, hpff, hpffail⟩ := hfailex
    have hfail : (processInputFiles files).2 ≠ [] := by
      intro h
      have := (processInputFiles_snd_nil_iff _).mp h pff hpff
      rw [hpffail] at this
      exact Bool.noConfusion this
    have hurls : (processInputFiles files).1 ≠ [] := by
      intro h
      have := (processInputFiles_fst_nil_iff _).mp h pfo hpfo
      rw [hpfok] at this
      exact Bool.noConfusion this
    simp [handle_input_files, hfail, hurls]
  · intro files hall
    have hfail : (processInputFiles files).2 = [] :=
      (processInputFiles_snd_nil_iff _).mpr hall
    simp [handle_input_files, hfail]

/-- Witness for C6 at concrete batches: a single missing file aborts with
its aggregated failure, and the mixed 3-file batch proceeds with the two
successes and one warning entry. -/
theorem handle_input_files_spec_witness :
    handle_input_files [("x.png".toList, FileSt.missing)] =
      .aborted ["x.png (file not found)".toList] ∧
    handle_input_files demoFiles =
      .proceedWithWarning ["urlA".toList, "urlC".toList]
        ["b.png (file not found)".toList] := by
  constructor
  · have h := handle_input_files_spec.2.2.1 [("x.png".toList, FileSt.missing)]
      (by decide) (by decide)
    rw [h]; decide
  · have h := handle_input_files_spec.2.2.2.1 demoFiles
      ⟨("a.png".toList, FileSt.uploadOk "urlA".toList), by decide, rfl⟩
      ⟨("b.png".toList, FileSt.missing), by decide, rfl⟩
    rw [h]; decide

/-! ## Upload pre-network validation (C7) -/

/-- Filesystem facts about a path as the os.path calls observe them. -/
structure FileMeta where
  pathExists : Bool
  isFile : Bool
  size : ℕ
deriving DecidableEq

/-- Outcome of the validation prefix of `_upload_file_to_layer` before any
network call, one constructor per raise plus the fall-through. -/
inductive UploadCheck where
  | emptyPathError
  | notFoundError
  | notAFileError
  | invalidPathError
  | proceedToNetwork
deriving DecidableEq

/-- Embedding of the validation prefix of `_upload_file_to_layer`
(production_ready_layer_ai_server.py lines 252-262): empty path, missing
path and non-regular-file are rejected; nothing else is checked before the
upload-URL network call. -/
def upload_file_validation (path : PyStr) (m : FileMeta) : UploadCheck :=
  if path = [] then .emptyPathError
  else if m.pathExists = false then .notFoundError
  else if m.isFile = false then .notAFileError
  else .proceedToNetwork

/-- Embedding of the validation prefix of `_upload_file_to_layer` in
critical_bug_fixes.py (lines 66-70): a single check of falsy path or
missing path. -/
def upload_file_validation_fixed (path : PyStr) (m : FileMeta) : UploadCheck :=
  if path = [] ∨ m.pathExists = false then .invalidPathError
  else .proceedToNetwork

/-- C7 counterexample: an empty (size 0) regular file, and a 60 MiB file,
both pass the upload validation and reach the network phase in both
variants, whereas the claim states the upload fails fast on empty or
oversized files before any network call. -/
theorem upload_file_validation_cex :
    upload_file_validation "f.png".toList ⟨true, true, 0⟩ = .proceedToNetwork ∧
    upload_file_validation "f.png".toList
      ⟨true, true, 60 * 1024 * 1024⟩ = .proceedToNetwork ∧
    upload_file_validation_fixed "f.png".toList ⟨true, true, 0⟩ =
      .proceedToNetwork := by
  refine ⟨rfl, rfl, rfl⟩

/-- C7 (amended): before any network call the production upload operation
validates exactly that the path is non-empty, exists, and refers to a
regular file, failing fast with the matching descriptive error otherwise;
it performs no content-size validation at all (its outcome is independent
of the file size — the non-empty and 50 MiB checks exist only in
`_encode_image_to_base64`, which the upload path does not call), and the
critical_bug_fixes variant checks only that the path is non-empty and
exists. -/
theorem upload_file_validation_spec :
    (∀ path m, upload_file_validation path m = .proceedToNetwork ↔
      (path ≠ [] ∧ m.pathExists = true ∧ m.isFile = true)) ∧
    (∀ path m m', m.pathExists = m'.pathExists → m.isFile = m'.isFile →
      upload_file_validation path m = upload_file_validation path m') ∧
    (∀ m, upload_file_validation [] m = .emptyPathError) ∧
    (∀ path m, path ≠ [] → m.pathExists = false →
      upload_file_validation path m = .notFoundError) ∧
    (∀ path m, path ≠ [] → m.pathExists = true → m.isFile = false →
      upload_file_validation path m = .notAFileError) ∧
    (∀ path m, upload_file_validation_fixed path m = .proceedToNetwork ↔
      (path ≠ [] ∧ m.pathExists = true)) := by
  refine ⟨?_, ?_, ?_, ?_, ?_, ?_⟩
  · intro path m
    unfold upload_file_validation
    split_ifs with h1 h2 h3 <;> simp_all
  · intro path m m' he hf
    unfold upload_file_validation
    rw [he, hf]
  · intro m
    simp [upload_file_validation]
  · intro path m h1 h2
    simp [upload_file_validation, h1, h2]
  · intro path m h1 h2 h3
    simp [upload_file_validation, h1, h2, h3]
  · intro path m
    unfold upload_file_validation_fixed
    split_ifs with h1
    · simp_all
      tauto
    · simp_all

/-- Witness for C7 at concrete inputs: the validation outcome of an
existing regular file is the same at sizes 123 and 0, and an existing
regular path reaches the network phase. -/
theorem upload_file_validation_spec_witness :
    upload_file_validation "f.png".toList ⟨true, true, 123⟩ =
      upload_file_validation "f.png".toList ⟨true, true, 0⟩ ∧
    upload_file_validation "g.png".toList ⟨true, false, 7⟩ =
      .notAFileError := by
  constructor
  · exact upload_file_validation_spec.2.1 "f.png".toList
      ⟨true, true, 123⟩ ⟨true, true, 0⟩ rfl rfl
  · exact upload_file_validation_spec.2.2.2.2.1 "g.png".toList
      ⟨true, false, 7⟩ (by decide) rfl rfl

/-! ## Generation-parameter clamping (C9) -/

/-- The caller-supplied numeric generation arguments of `_create_asset`
that the claim concerns; Python ints are embedded as unbounded integers
and floats as rationals (clamping performs only comparisons and
selections, no rounding arithmetic). -/
structure GenArgs where
  width : Option ℤ
  height : Option ℤ
  steps : Option ℤ
  guidance_scale : Option ℚ
  creativity : Option ℚ
  resemblance : Option ℚ
deriving DecidableEq

/-- The corresponding submitted parameters dictionary entries. -/
structure GenParams where
  width : ℤ
  height : ℤ
  numInferenceSteps : ℤ
  guidanceScale : ℚ
  creativity : Option ℚ
  resemblance : Option ℚ
deriving DecidableEq

/-- Embedding of the clamping in `_create_asset`
(production_ready_layer_ai_server.py lines 382-386 and 425-428): defaults
512/512/20/7.5, clamps max lo (min hi x), creativity and resemblance only
when supplied. -/
def build_parameters (a : GenArgs) : GenParams where
  width := max 64 (min 2048 (a.width.getD 512))
  height := max 64 (min 2048 (a.height.getD 512))
  numInferenceSteps := max 1 (min 100 (a.steps.getD 20))
  guidanceScale := max 1 (min 20 (a.guidance_scale.getD (15 / 2)))
  creativity := a.creativity.map (fun c => max 0 (min 1 c))
  resemblance := a.resemblance.map (fun r => max 0 (min 1 r))

/-- C9: for every caller input the submitted parameters satisfy width and
height in [64, 2048], steps in [1, 100], guidance scale in [1, 20], and
creativity and resemblance — when supplied — in [0, 1]; and the input
width 10000 is submitted as exactly 2048. -/
theorem build_parameters_spec :
    (∀ a, 64 ≤ (build_parameters a).width ∧ (build_parameters a).width ≤ 2048 ∧
      64 ≤ (build_parameters a).height ∧ (build_parameters a).height ≤ 2048 ∧
      1 ≤ (build_parameters a).numInferenceSteps ∧
      (build_parameters a).numInferenceSteps ≤ 100 ∧
      1 ≤ (build_parameters a).guidanceScale ∧
      (build_parameters a).guidanceScale ≤ 20 ∧
      (∀ c, (build_parameters a).creativity = some c → 0 ≤ c ∧ c ≤ 1) ∧
      (∀ r, (build_parameters a).resemblance = some r → 0 ≤ r ∧ r ≤ 1)) ∧
    (build_parameters ⟨some 10000, none, none, none, none, none⟩).width = 2048 := by
  constructor
  · intro a
    refine ⟨le_max_left _ _, max_le (by norm_num) (min_le_left _ _),
      le_max_left _ _, max_le (by norm_num) (min_le_left _ _),
      le_max_left _ _, max_le (by norm_num) (min_le_left _ _),
      le_max_left _ _, max_le (by norm_num) (min_le_left _ _), ?_, ?_⟩
    · intro c hc
      simp only [build_parameters, Option.map_eq_some'] at hc
      obtain ⟨v, -, hv⟩ := hc
      rw [← hv]
      exact ⟨le_max_left _ _, max_le (by norm_num) (min_le_left _ _)⟩
    · intro r hr
      simp only [build_parameters, Option.map_eq_some'] at hr
      obtain ⟨v, -, hv⟩ := hr
      rw [← hv]
      exact ⟨le_max_left _ _, max_le (by norm_num) (min_le_left _ _)⟩
  · norm_num [build_parameters]

/-- Witness for C9: the clamped creativity of input 5 is 1 and lies in
[0, 1], and the clamped resemblance of input -2 is 0 and lies in [0, 1]. -/
theorem build_parameters_spec_witness :
    ((0 : ℚ) ≤ 1 ∧ (1 : ℚ) ≤ 1) ∧ ((0 : ℚ) ≤ 0 ∧ (0 : ℚ) ≤ 1) := by
  constructor
  · exact (build_parameters_spec.1
      ⟨none, none, none, none, some 5, some (-2)⟩).2.2.2.2.2.2.2.2.1 1
        (by norm_num [build_parameters])
  · exact (build_parameters_spec.1
      ⟨none, none, none, none, some 5, some (-2)⟩).2.2.2.2.2.2.2.2.2 0
        (by norm_num [build_parameters])

end LayerMCP
